import Mathlib

/-!
Verification development for the vigem-rust client library: a shallow
embedding of the bus transport, wire codec, target registry and target
handle layers, with theorems settling the specification claims.

Machine integers of the source (u8, u16, u32) are modelled as Nat; every
operation proved about stays within the value range of the original type,
so no wrap-around modelling is required except where noted.  Fallible
Rust functions returning Result are modelled with Except.  OS effects
(overlapped calls, DeviceIoControl) are modelled by outcome oracles plus
an explicit trace of the control requests issued.
-/

/-! ## Error types (src/client.rs, src/internal/bus.rs) -/

/-- Model of windows::core::Error: an abstract OS error code. -/
structure WinError where
  code : Nat
deriving DecidableEq

/-- BusError from src/internal/bus.rs. -/
inductive BusError where
  | windowsAPIError : WinError → BusError
  | versionMismatch : BusError
  | busNotFound : BusError
deriving DecidableEq

/-- ClientError from src/client.rs. -/
inductive ClientError where
  | windowsAPIError : WinError → ClientError
  | busError : BusError → ClientError
  | noFreeSlot : ClientError
  | targetDoesNotExist : Nat → ClientError
  | clientNoLongerExists : ClientError
deriving DecidableEq

/-! ## DS4 touch coordinate packing (src/controller/ds4.rs) -/

/-- `Ds4Touch::pack_coords` from src/controller/ds4.rs: clamp x to 1919
and y to 942, then pack the 12-bit X and 12-bit Y into three bytes.
The source's `as u8` casts are lossless because every component is
below 256, so the bytes are represented directly as Nat. -/
def Ds4Touch.pack_coords (x y : Nat) : Nat × Nat × Nat :=
  let x := min x 1919
  let y := min y 942
  (x &&& 0xFF, ((x >>> 8) &&& 0x0F) ||| ((y &&& 0x0F) <<< 4), (y >>> 4) &&& 0xFF)

/-- `Ds4Touch::unpack_coords` from src/controller/ds4.rs. -/
def Ds4Touch.unpack_coords (buf : Nat × Nat × Nat) : Nat × Nat :=
  (buf.1 ||| ((buf.2.1 &&& 0x0F) <<< 8), ((buf.2.1 &&& 0xF0) >>> 4) ||| (buf.2.2 <<< 4))

/-! ## Wire-record layout (src/internal/ioctl.rs, src/controller/ds4.rs)

The request records are Rust `repr(C)` / `repr(C, packed)` structs.  Their
encoded byte sizes are computed from the field lists by the standard C
layout rules: each field is placed at the next offset aligned to the
field's alignment, and the struct size is the end offset rounded up to the
struct alignment.  A `repr(C, packed)` struct has every alignment equal
to 1, so its size is the plain sum of its field sizes.  A packed union's
size is the maximum of its variants' sizes. -/

/-- Round `off` up to the next multiple of the alignment `a`. -/
def alignUp (off a : Nat) : Nat := (off + a - 1) / a * a

/-- One field of a C-layout struct: its byte size and alignment. -/
structure CField where
  size : Nat
  align : Nat
deriving DecidableEq

def u8Field : CField := ⟨1, 1⟩
def u16Field : CField := ⟨2, 2⟩
def u32Field : CField := ⟨4, 4⟩
def i16Field : CField := ⟨2, 2⟩
def bytesField (n : Nat) : CField := ⟨n, 1⟩

/-- Alignment of a `repr(C)` struct: max of the field alignments. -/
def structAlign (fs : List CField) : Nat := fs.foldl (fun m f => max m f.align) 1

/-- End offset after laying out all fields in declaration order. -/
def structFieldsEnd (fs : List CField) : Nat :=
  fs.foldl (fun off f => alignUp off f.align + f.size) 0

/-- Encoded size of a `repr(C)` struct (tail-padded to its alignment). -/
def cStructSize (fs : List CField) : Nat := alignUp (structFieldsEnd fs) (structAlign fs)

/-- Encoded size of a `repr(C, packed)` struct: the sum of field sizes. -/
def cPackedSize (fs : List CField) : Nat := (fs.map (fun f => f.size)).sum

/-- Field list of `Ds4Report` (src/controller/ds4.rs, `repr(C)`): four u8
thumbstick axes, the u16 buttons bitmask, then special, trigger_l and
trigger_r bytes. -/
def ds4ReportCFields : List CField :=
  [u8Field, u8Field, u8Field, u8Field, u16Field, u8Field, u8Field, u8Field]

/-- Field list of `Ds4SubmitReport` (`repr(C)`): size u32, serial_no u32,
then the embedded `Ds4Report`. -/
def ds4SubmitReportCFields : List CField :=
  [u32Field, u32Field, ⟨cStructSize ds4ReportCFields, structAlign ds4ReportCFields⟩]

/-- Field list of `Ds4Touch` (`repr(C, packed)`): packet_counter,
is_up_tracking_num_1, touch_data_1 (3 bytes), is_up_tracking_num_2,
touch_data_2 (3 bytes). -/
def ds4TouchFields : List CField :=
  [u8Field, u8Field, bytesField 3, u8Field, bytesField 3]

/-- Field list of `Ds4ReportExData` (`repr(C, packed)`), in declaration
order from src/controller/ds4.rs. -/
def ds4ReportExDataFields : List CField :=
  [u8Field, u8Field, u8Field, u8Field, u16Field, u8Field, u8Field, u8Field,
   u16Field, u8Field,
   i16Field, i16Field, i16Field, i16Field, i16Field, i16Field,
   bytesField 5, u8Field, bytesField 2, u8Field,
   bytesField (cPackedSize ds4TouchFields),
   bytesField (2 * cPackedSize ds4TouchFields)]

/-- Encoded size of the `Ds4ReportEx` packed union: the maximum of its two
variants, the `Ds4ReportExData` struct and the 63-byte `report_buffer`. -/
def ds4ReportExUnionSize : Nat := max (cPackedSize ds4ReportExDataFields) 63

/-! ## DS4 report values and their byte encoders -/

/-- `Ds4Report` (src/controller/ds4.rs): all fields are u8 except the u16
buttons bitmask. -/
structure Ds4Report where
  thumb_lx : Nat
  thumb_ly : Nat
  thumb_rx : Nat
  thumb_ry : Nat
  buttons : Nat
  special : Nat
  trigger_l : Nat
  trigger_r : Nat
deriving DecidableEq

/-- `Ds4Touch` value (src/controller/ds4.rs): the two 3-byte coordinate
fields are represented as byte triples, matching `pack_coords` output. -/
structure Ds4TouchData where
  packet_counter : Nat
  is_up_tracking_num_1 : Nat
  touch_data_1 : Nat × Nat × Nat
  is_up_tracking_num_2 : Nat
  touch_data_2 : Nat × Nat × Nat
deriving DecidableEq

/-- `Ds4ReportExData` (src/controller/ds4.rs): the 60-byte logical payload
of the extended report.  The uninterpreted `_unknown` byte arrays are modelled as
byte lists (encoded at their fixed width). -/
structure Ds4ReportExData where
  thumb_lx : Nat
  thumb_ly : Nat
  thumb_rx : Nat
  thumb_ry : Nat
  buttons : Nat
  special : Nat
  trigger_l : Nat
  trigger_r : Nat
  timestamp : Nat
  battery_lvl : Nat
  gyro_x : Int
  gyro_y : Int
  gyro_z : Int
  accel_x : Int
  accel_y : Int
  accel_z : Int
  unknown1 : List Nat
  battery_lvl_special : Nat
  unknown2 : List Nat
  touch_packets_n : Nat
  current_touch : Ds4TouchData
  previous_touch : Ds4TouchData × Ds4TouchData
deriving DecidableEq

/-- Little-endian bytes of a u16 value. -/
def encodeU16 (n : Nat) : List Nat := [n % 256, n / 256 % 256]

/-- Little-endian two's-complement bytes of an i16 value. -/
def encodeI16 (n : Int) : List Nat := encodeU16 (n % 65536).toNat

/-- A fixed-width byte-array field: encoded at exactly `n` bytes. -/
def encodeBytes (n : Nat) (l : List Nat) : List Nat :=
  (l ++ List.replicate n 0).take n

/-- Byte encoding of a packed `Ds4Touch` value (9 bytes). -/
def Ds4TouchData.encode (t : Ds4TouchData) : List Nat :=
  [t.packet_counter, t.is_up_tracking_num_1,
   t.touch_data_1.1, t.touch_data_1.2.1, t.touch_data_1.2.2,
   t.is_up_tracking_num_2,
   t.touch_data_2.1, t.touch_data_2.2.1, t.touch_data_2.2.2]

/-- Byte encoding of the packed `Ds4ReportExData` struct, field by field in
declaration order with no padding (`repr(C, packed)`). -/
def Ds4ReportExData.encode (r : Ds4ReportExData) : List Nat :=
  [r.thumb_lx, r.thumb_ly, r.thumb_rx, r.thumb_ry]
    ++ encodeU16 r.buttons
    ++ [r.special, r.trigger_l, r.trigger_r]
    ++ encodeU16 r.timestamp
    ++ [r.battery_lvl]
    ++ encodeI16 r.gyro_x ++ encodeI16 r.gyro_y ++ encodeI16 r.gyro_z
    ++ encodeI16 r.accel_x ++ encodeI16 r.accel_y ++ encodeI16 r.accel_z
    ++ encodeBytes 5 r.unknown1
    ++ [r.battery_lvl_special]
    ++ encodeBytes 2 r.unknown2
    ++ [r.touch_packets_n]
    ++ r.current_touch.encode
    ++ r.previous_touch.1.encode ++ r.previous_touch.2.encode

/-! ## Bus transport (src/internal/bus.rs, src/internal/overlapped.rs)

Each synchronous bus operation allocates an `OverlappedCall` (fallible:
`CreateEventW`), issues one `DeviceIoControl` whose immediate return value
is discarded, and then blocks in `OverlappedCall::wait`
(`GetOverlappedResult`, fallible).  The OS behaviour of one such call is
modelled by a `CallOutcome` oracle; the control requests actually issued
are collected in a trace. -/

/-- The ViGEm control codes used below (src/internal/ioctl.rs). -/
inductive IoctlOp where
  | pluginTarget
  | unplugTarget
  | waitDeviceReady
  | ds4SubmitReport
  | xusbSubmitReport
deriving DecidableEq

/-- One issued `DeviceIoControl` request: its opcode and the
`nInBufferSize` argument, which the source always passes as the request
struct's own `size` field. -/
structure IoctlRecord where
  op : IoctlOp
  inSize : Nat
deriving DecidableEq

deriving instance DecidableEq for Except

/-- Outcome oracle for one `OverlappedCall`: the result of
`OverlappedCall::new` and, if the call gets submitted, of
`OverlappedCall::wait` (bytes transferred). -/
structure CallOutcome where
  newResult : Except WinError Unit
  waitResult : Except WinError Nat
deriving DecidableEq

/-- Run one overlapped transaction: if `OverlappedCall::new` fails nothing
is issued; otherwise the request is issued (recorded in the trace) and the
wait result is returned. -/
def runOverlapped (c : CallOutcome) (rec : IoctlRecord) :
    Except WinError Nat × List IoctlRecord :=
  match c.newResult with
  | .error e => (.error e, [])
  | .ok () => (c.waitResult, [rec])

/-- `TargetType` (src/target.rs). -/
inductive TargetType where
  | xbox360
  | dualShock4
deriving DecidableEq

/-- `Target` (src/target.rs). -/
structure Target where
  kind : TargetType
  serial_no : Nat
  vendor_id : Nat
  product_id : Nat
deriving DecidableEq

/-- `PluginTarget` request (src/internal/ioctl.rs): u32 size, u32 serial,
u32 target type, u16 vendor, u16 product; `repr(C)` size 16. -/
def pluginTargetCFields : List CField :=
  [u32Field, u32Field, u32Field, u16Field, u16Field]

/-- `UnPlugTarget` / `WaitDeviceReady` requests: u32 size, u32 serial. -/
def slotOnlyCFields : List CField := [u32Field, u32Field]

/-- `Ds4SubmitReport` built by `Bus::update_ds4`: `size` is
`size_of::<Ds4SubmitReport>()`. -/
structure Ds4SubmitReportReq where
  size : Nat
  serial_no : Nat
  report : Ds4Report
deriving DecidableEq

def mkDs4SubmitReport (serial : Nat) (report : Ds4Report) : Ds4SubmitReportReq :=
  ⟨cStructSize ds4SubmitReportCFields, serial, report⟩

/-- `Bus::plug` (src/internal/bus.rs lines 176-227): issue the plug-target
call and wait for it, then issue the wait-device-ready call and wait for
it; each phase propagates both the `OverlappedCall::new` error and the
`wait` error with `?`. -/
def busPlug (tgt : Target) (serial : Nat) (plugCall readyCall : CallOutcome) :
    Except BusError Unit × List IoctlRecord :=
  match runOverlapped plugCall ⟨.pluginTarget, cStructSize pluginTargetCFields⟩ with
  | (.error e, tr) => (.error (.windowsAPIError e), tr)
  | (.ok _, tr1) =>
    match runOverlapped readyCall ⟨.waitDeviceReady, cStructSize slotOnlyCFields⟩ with
    | (.error e, tr2) => (.error (.windowsAPIError e), tr1 ++ tr2)
    | (.ok _, tr2) => (.ok (), tr1 ++ tr2)

/-- `Bus::unplug` (src/internal/bus.rs lines 229-253). -/
def busUnplug (serial : Nat) (c : CallOutcome) :
    Except BusError Unit × List IoctlRecord :=
  match runOverlapped c ⟨.unplugTarget, cStructSize slotOnlyCFields⟩ with
  | (.error e, tr) => (.error (.windowsAPIError e), tr)
  | (.ok _, tr) => (.ok (), tr)

/-- `Bus::update_ds4` (src/internal/bus.rs lines 284-309): build the
submit-report request with `size = size_of::<Ds4SubmitReport>()`, issue it
and wait.  No registry state is consulted. -/
def busUpdateDs4 (serial : Nat) (report : Ds4Report) (c : CallOutcome) :
    Except BusError Unit × List IoctlRecord :=
  match runOverlapped c ⟨.ds4SubmitReport, (mkDs4SubmitReport serial report).size⟩ with
  | (.error e, tr) => (.error (.windowsAPIError e), tr)
  | (.ok _, tr) => (.ok (), tr)

/-! ## Target registry and handles (src/client.rs, src/target.rs)

`ClientInner` holds the slot map; the `HashMap<u32, Target>` is modelled
as an association list with unique keys (uniqueness is proved as an
invariant, not assumed).  The outcome of `Bus::plug` on a candidate slot
is abstracted as a Boolean oracle `plugOk`, and the discarded results of
`Bus::unplug` as an `Except` oracle. -/

/-- `ClientInner` (src/client.rs): the targets map and the capacity. -/
structure ClientInner where
  targets : List (Nat × Target)
  maxTargets : Nat
deriving DecidableEq

/-- `HashMap::contains_key`. -/
def containsKey (m : List (Nat × Target)) (k : Nat) : Bool :=
  m.any (fun p => p.1 == k)

/-- `HashMap::remove` (the resulting map). -/
def removeKey (m : List (Nat × Target)) (k : Nat) : List (Nat × Target) :=
  m.filter (fun p => p.1 != k)

/-- The loop body of `Client::plugin_internal` (src/client.rs lines
170-182) over the remaining candidate slot numbers: skip an occupied
slot, skip a free slot whose `bus.plug` fails, and on the first free slot
whose plug succeeds record `serial_no` in the target, insert it and
return the slot. -/
def pluginLoop (inner : ClientInner) (plugOk : Nat → Bool) (tgt : Target) :
    List Nat → Except ClientError (ClientInner × Nat)
  | [] => .error .noFreeSlot
  | serial :: rest =>
    if !containsKey inner.targets serial && plugOk serial then
      .ok ({ inner with
              targets := (serial, { tgt with serial_no := serial }) :: inner.targets },
           serial)
    else
      pluginLoop inner plugOk tgt rest

/-- `Client::plugin_internal` (src/client.rs lines 163-185): scan the
candidate slots `1..=max_targets` in ascending order; with no usable
candidate, fail with `NoFreeSlot`. -/
def pluginInternal (inner : ClientInner) (plugOk : Nat → Bool) (tgt : Target) :
    Except ClientError (ClientInner × Nat) :=
  pluginLoop inner plugOk tgt (List.range' 1 inner.maxTargets)

/-- `TargetHandle::unplug` (src/target.rs lines 128-138).  `clientAlive`
models whether the `Weak` upgrade succeeds.  Returns the result, the new
registry state, and the serials for which a driver-level `bus.unplug` was
issued; the `bus.unplug` result itself is discarded by the source
(`let _ = ...`). -/
def handleUnplug (clientAlive : Bool) (inner : ClientInner) (serial : Nat)
    (busUnplug : Nat → Except BusError Nat) :
    Except ClientError Unit × ClientInner × List Nat :=
  if clientAlive then
    if containsKey inner.targets serial then
      (.ok (), { inner with targets := removeKey inner.targets serial }, [serial])
    else
      (.ok (), inner, [])
  else
    (.error .clientNoLongerExists, inner, [])

/-- `TargetHandle::<DualShock4>::update` (src/target.rs lines 356-359):
forward the report to `Bus::update_ds4` and wrap its error.  The registry
state `inner` is NOT consulted by the source, which is why it is an
unused argument here. -/
def targetHandleUpdateDs4 (inner : ClientInner) (serial : Nat) (report : Ds4Report)
    (c : CallOutcome) : Except ClientError Unit × List IoctlRecord :=
  match busUpdateDs4 serial report c with
  | (.ok _, tr) => (.ok (), tr)
  | (.error e, tr) => (.error (.busError e), tr)

/-- The loop of `Drop for ClientInner` (src/client.rs lines 188-195):
the serials for which a best-effort `bus.unplug` is issued, one per map
entry, each result discarded with `let _ = ...`. -/
def dropUnplugCalls (targets : List (Nat × Target))
    (busUnplug : Nat → Except BusError Nat) : List Nat :=
  match targets with
  | [] => []
  | p :: rest => p.2.serial_no :: dropUnplugCalls rest busUnplug

/-- `Drop for ClientInner`: issue one best-effort unplug per remaining
entry, then clear the map. -/
def clientInnerDrop (inner : ClientInner) (busUnplug : Nat → Except BusError Nat) :
    List Nat × ClientInner :=
  (dropUnplugCalls inner.targets busUnplug, { inner with targets := [] })

/-- The registry states reachable through the public operations: the
freshly connected client, a successful `plugin_internal`, and the removal
performed by `TargetHandle::unplug` / the handle's `Drop` (both mutate the
map the same way).  A failed `plugin_internal` does not change the
state. -/
inductive Reachable : ClientInner → Prop where
  | init : ∀ maxTargets, Reachable ⟨[], maxTargets⟩
  | plugStep : ∀ s plugOk tgt s' k, Reachable s →
      pluginInternal s plugOk tgt = .ok (s', k) → Reachable s'
  | unplugStep : ∀ s serial u, Reachable s →
      Reachable (handleUnplug true s serial u).2.1

/-! ## Readiness wait (src/target.rs, `wait_for_notifications_internal`)

The channel events observed by one `recv_timeout` call: a decoded
notification, a transported bus error, a timeout, or a disconnected
channel.  The wait is modelled as a function of the event sequence; it
also records the timeout (in milliseconds) requested by each
`recv_timeout` call.  `none` means the modelled event list ran out before
the wait resolved (a real channel always eventually yields a timeout or
disconnection, so the claims below only concern resolving sequences). -/

inductive RecvEvent where
  | notif
  | busErr : BusError → RecvEvent
  | timeout
  | disconnected
deriving DecidableEq

/-- The second phase (`loop` with 250 ms timeout): a notification resets
the wait, a timeout means stable/ready, a bus error and a disconnect
abort. -/
def stabilizeLoop (serial : Nat) :
    List RecvEvent → Option (Except ClientError Unit) × List Nat
  | [] => (none, [])
  | ev :: rest =>
    match ev with
    | .notif =>
      let r := stabilizeLoop serial rest
      (r.1, 250 :: r.2)
    | .busErr e => (some (.error (.busError e)), [250])
    | .timeout => (some (.ok ()), [250])
    | .disconnected => (some (.error (.targetDoesNotExist serial)), [250])

/-- `wait_for_notifications_internal` (src/target.rs lines 507-546): a
first `recv_timeout` of 500 ms; a timeout there already means ready, a
notification enters the stabilization loop, errors abort. -/
def waitForNotifications (serial : Nat) :
    List RecvEvent → Option (Except ClientError Unit) × List Nat
  | [] => (none, [])
  | ev :: rest =>
    match ev with
    | .notif =>
      let r := stabilizeLoop serial rest
      (r.1, 500 :: r.2)
    | .busErr e => (some (.error (.busError e)), [500])
    | .timeout => (some (.ok ()), [500])
    | .disconnected => (some (.error (.targetDoesNotExist serial)), [500])

/-! ## Concrete demonstration values -/

/-- The default DualShock 4 identity from `TargetType::get_identifiers`. -/
def demoTarget : Target := ⟨.dualShock4, 0, 0x054C, 0x05C4⟩

/-- A registry that holds `demoTarget` in slot 1 with capacity 16. -/
def demoInner : ClientInner := ⟨[(1, { demoTarget with serial_no := 1 })], 16⟩

/-- A default-like standard DS4 report (centered sticks, neutral D-pad). -/
def demoDs4Report : Ds4Report := ⟨128, 128, 128, 128, 8, 0, 0, 0⟩

/-- An oracle on which every overlapped wait succeeds. -/
def okCall : CallOutcome := ⟨.ok (), .ok 0⟩

/-- A failing bus-unplug oracle: every driver-level unplug reports an
error (used to show teardown still completes). -/
def failingUnplug : Nat → Except BusError Nat := fun _ => .error .busNotFound

/-- Run `n` successive `plugin_internal` calls, collecting the results
(stopping after the first failure). -/
def allocRun (tgt : Target) (plugOk : Nat → Bool) :
    ClientInner → Nat → ClientInner × List (Except ClientError Nat)
  | inner, 0 => (inner, [])
  | inner, n + 1 =>
    match pluginInternal inner plugOk tgt with
    | .ok (s', k) =>
      let r := allocRun tgt plugOk s' n
      (r.1, .ok k :: r.2)
    | .error e => (inner, [.error e])

/-- The registry contents after `j` successful sequential plugs starting
from an empty registry: slots `1..=j`, most recent insertion first. -/
def canonTargets (tgt : Target) (j : Nat) : List (Nat × Target) :=
  (List.range' 1 j).reverse.map (fun i => (i, { tgt with serial_no := i }))

/-- The registry state after `j` successful sequential plugs. -/
def canonState (tgt : Target) (m j : Nat) : ClientInner := ⟨canonTargets tgt j, m⟩

/-- A concrete extended report value for evaluation. -/
def demoReportExData : Ds4ReportExData :=
  ⟨128, 128, 128, 128, 8, 0, 0, 0, 0, 0, 0, 0, 0, 0, 0, 0,
   [0, 0, 0, 0, 0], 0, [0, 0], 0,
   ⟨0, 0x80, (0, 0, 0), 0x80, (0, 0, 0)⟩,
   (⟨0, 0x80, (0, 0, 0), 0x80, (0, 0, 0)⟩, ⟨0, 0x80, (0, 0, 0), 0x80, (0, 0, 0)⟩)⟩

/-! # Theorems -/

/-! ### Bit-arithmetic helpers for the coordinate packing -/

theorem and15_eq_mod (n : Nat) : n &&& 15 = n % 16 := by
  simpa using Nat.and_pow_two_sub_one_eq_mod n 4

theorem and255_eq_mod (n : Nat) : n &&& 255 = n % 256 := by
  simpa using Nat.and_pow_two_sub_one_eq_mod n 8

theorem shr4_eq_div (n : Nat) : n >>> 4 = n / 16 := by
  simpa using Nat.shiftRight_eq_div_pow n 4

theorem shr8_eq_div (n : Nat) : n >>> 8 = n / 256 := by
  simpa using Nat.shiftRight_eq_div_pow n 8

theorem lor_mul_eq_add (k a b : Nat) (h : a < 2 ^ k) : a ||| (2 ^ k * b) = a + 2 ^ k * b := by
  rw [Nat.or_comm, ← Nat.mul_add_lt_is_or h b]
  exact Nat.add_comm _ _

theorem lor_shl4_eq (a b : Nat) (h : a < 16) : a ||| (b <<< 4) = a + 16 * b := by
  have h4 : a < 2 ^ 4 := h
  have := lor_mul_eq_add 4 a b h4
  rw [Nat.shiftLeft_eq, Nat.mul_comm b (2 ^ 4)]
  simpa using this

theorem lor_shl8_eq (a b : Nat) (h : a < 256) : a ||| (b <<< 8) = a + 256 * b := by
  have h8 : a < 2 ^ 8 := h
  have := lor_mul_eq_add 8 a b h8
  rw [Nat.shiftLeft_eq, Nat.mul_comm b (2 ^ 8)]
  simpa using this

theorem and240_high : ∀ u < 16, ∀ v < 16, (u + 16 * v) &&& 240 = 16 * v := by decide

/-- Unpacking a packed coordinate pair recovers exactly the clamped inputs. -/
theorem Ds4Touch.unpack_coords_pack_coords (x y : Nat) :
    Ds4Touch.unpack_coords (Ds4Touch.pack_coords x y) = (min x 1919, min y 942) := by
  simp only [Ds4Touch.pack_coords, Ds4Touch.unpack_coords]
  set a := min x 1919 with ha
  set b := min y 942 with hb
  simp only [and15_eq_mod, and255_eq_mod, shr4_eq_div, shr8_eq_div, Prod.mk.injEq]
  rw [lor_shl4_eq (a / 256 % 16) (b % 16) (by omega)]
  refine ⟨?_, ?_⟩
  · have e1 : (a / 256 % 16 + 16 * (b % 16)) % 16 = a / 256 := by omega
    rw [e1, lor_shl8_eq (a % 256) (a / 256) (by omega)]
    omega
  · rw [and240_high (a / 256 % 16) (by omega) (b % 16) (by omega)]
    have e2 : 16 * (b % 16) / 16 = b % 16 := by omega
    rw [e2, lor_shl4_eq (b % 16) (b / 16 % 256) (by omega)]
    omega

/-- Clamping is idempotent through the packer: packing any input equals
packing its clamped form. -/
theorem Ds4Touch.pack_coords_clamp (x y : Nat) :
    Ds4Touch.pack_coords x y = Ds4Touch.pack_coords (min x 1919) (min y 942) := by
  simp only [Ds4Touch.pack_coords, min_assoc, min_self]

/-- C5: Touch-coordinate packing round-trip: for all x in [0,1919] and y
in [0,942] (and in fact for all inputs, by clamping),
pack(unpack(pack(x,y))) = pack(x,y) for the 3-byte 12-bit/12-bit
coordinate packing, and inputs above those ranges are clamped to 1919 and
942 respectively before packing, never wrapped or rejected. -/
theorem c5_touch_pack_roundtrip (x y : Nat) :
    Ds4Touch.pack_coords (Ds4Touch.unpack_coords (Ds4Touch.pack_coords x y)).1
        (Ds4Touch.unpack_coords (Ds4Touch.pack_coords x y)).2
      = Ds4Touch.pack_coords x y
    ∧ Ds4Touch.pack_coords x y = Ds4Touch.pack_coords (min x 1919) (min y 942)
    ∧ Ds4Touch.unpack_coords (Ds4Touch.pack_coords x y) = (min x 1919, min y 942) := by
  have hup := Ds4Touch.unpack_coords_pack_coords x y
  refine ⟨?_, Ds4Touch.pack_coords_clamp x y, hup⟩
  rw [hup]
  exact (Ds4Touch.pack_coords_clamp x y).symm

/-- C5 witness: the round trip evaluated at the in-range input (100, 200)
and the clamping behaviour at the out-of-range input (5000, 5000). -/
theorem c5_touch_pack_roundtrip_witness :
    Ds4Touch.pack_coords (Ds4Touch.unpack_coords (Ds4Touch.pack_coords 100 200)).1
        (Ds4Touch.unpack_coords (Ds4Touch.pack_coords 100 200)).2
      = Ds4Touch.pack_coords 100 200
    ∧ Ds4Touch.pack_coords 5000 5000 = Ds4Touch.pack_coords 1919 942 := by
  refine ⟨(c5_touch_pack_roundtrip 100 200).1, ?_⟩
  have h := (c5_touch_pack_roundtrip 5000 5000).2.1
  simpa using h

/-! ### Encoded-size lemmas -/

theorem encodeBytes_length (n : Nat) (l : List Nat) : (encodeBytes n l).length = n := by
  simp [encodeBytes]

theorem encodeU16_length (n : Nat) : (encodeU16 n).length = 2 := rfl

theorem encodeI16_length (n : Int) : (encodeI16 n).length = 2 := rfl

theorem ds4TouchEncode_length (t : Ds4TouchData) : t.encode.length = 9 := rfl

/-- C8: the kind-B (DualShock 4) extended report wire record is exactly
63 bytes and its logical data struct is exactly 60 bytes: the packed
union size is 63, the packed data-struct size is 60, and every encoded
`Ds4ReportExData` value is 60 bytes long. -/
theorem c8_extended_report_sizes :
    ds4ReportExUnionSize = 63
  ∧ cPackedSize ds4ReportExDataFields = 60
  ∧ ∀ r : Ds4ReportExData, r.encode.length = cPackedSize ds4ReportExDataFields := by
  refine ⟨by decide, by decide, ?_⟩
  intro r
  simp [Ds4ReportExData.encode, encodeBytes_length, encodeU16_length, encodeI16_length,
        ds4TouchEncode_length, encodeU16, encodeI16, Ds4TouchData.encode,
        cPackedSize, ds4ReportExDataFields, ds4TouchFields,
        u8Field, u16Field, i16Field, bytesField]

/-- C8 witness: the encoder evaluated on a concrete extended report. -/
theorem c8_extended_report_sizes_witness :
    demoReportExData.encode.length = 60 := by
  have h := c8_extended_report_sizes
  exact (h.2.2 demoReportExData).trans h.2.1

/-- C9 counterexample: the standard DS4 report is not 8 encoded bytes.
Its `repr(C)` layout is 10 bytes: 9 bytes of fields plus one trailing
padding byte forced by the u16 `buttons` alignment. -/
theorem c9_counterexample : ¬ cStructSize ds4ReportCFields = 8 := by decide

/-- C9 (amended): the kind-B standard submit-report request carries a
report of exactly 10 encoded bytes, and the request's `size` field equals
the exact encoded size (20 bytes) of the `Ds4SubmitReport` structure sent
to the driver, which is also the `nInBufferSize` of every control request
issued by `Bus::update_ds4`. -/
theorem c9_submit_report_sizes (serial : Nat) (report : Ds4Report) (c : CallOutcome) :
    cStructSize ds4ReportCFields = 10
  ∧ (mkDs4SubmitReport serial report).size = cStructSize ds4SubmitReportCFields
  ∧ cStructSize ds4SubmitReportCFields = 20
  ∧ ∀ rec ∈ (busUpdateDs4 serial report c).2,
      rec.inSize = cStructSize ds4SubmitReportCFields := by
  refine ⟨by decide, rfl, by decide, ?_⟩
  intro rec hrec
  rcases c with ⟨cn, cw⟩
  cases cn with
  | error e => simp [busUpdateDs4, runOverlapped] at hrec
  | ok u =>
    cases cw <;> simp [busUpdateDs4, runOverlapped, mkDs4SubmitReport] at hrec <;>
      simp [hrec]

/-- C9 witness: the request built for slot 1 evaluated concretely. -/
theorem c9_submit_report_sizes_witness :
    (mkDs4SubmitReport 1 demoDs4Report).size = 20 := by
  have h := c9_submit_report_sizes 1 demoDs4Report okCall
  exact h.2.1.trans h.2.2.1

/-- C2 counterexample: with a plug phase that completes successfully and a
wait-ready phase whose call-object allocation fails, `Bus::plug` returns
an error instead of success: the wait-ready outcome is propagated, not
ignored. -/
theorem c2_counterexample :
    (busPlug demoTarget 1 okCall ⟨.error ⟨5⟩, .ok 0⟩).1 = .error (.windowsAPIError ⟨5⟩)
  ∧ (busPlug demoTarget 1 okCall ⟨.error ⟨5⟩, .ok 0⟩).1 ≠ .ok () := by decide

/-- C2 (amended): when the plug-target call itself completed successfully,
`Bus::plug` returns success only if the subsequent wait-for-device-ready
phase also succeeds; a failure to allocate the wait-ready call object, or
a failure of its wait, is propagated as the result of `plug`. -/
theorem c2_plug_propagates_wait_ready (tgt : Target) (serial : Nat)
    (c1 c2 : CallOutcome) (n : Nat)
    (h1 : c1.newResult = .ok ()) (h2 : c1.waitResult = .ok n) :
    (∀ e, c2.newResult = .error e →
        (busPlug tgt serial c1 c2).1 = .error (.windowsAPIError e))
  ∧ (∀ e, c2.newResult = .ok () → c2.waitResult = .error e →
        (busPlug tgt serial c1 c2).1 = .error (.windowsAPIError e))
  ∧ (∀ m, c2.newResult = .ok () → c2.waitResult = .ok m →
        (busPlug tgt serial c1 c2).1 = .ok ()) := by
  refine ⟨?_, ?_, ?_⟩
  · intro e he
    simp [busPlug, runOverlapped, h1, h2, he]
  · intro e hn hw
    simp [busPlug, runOverlapped, h1, h2, hn, hw]
  · intro m hn hw
    simp [busPlug, runOverlapped, h1, h2, hn, hw]

/-- C2 witness: both phases succeeding on slot 1. -/
theorem c2_plug_propagates_wait_ready_witness :
    (busPlug demoTarget 1 okCall okCall).1 = .ok () :=
  (c2_plug_propagates_wait_ready demoTarget 1 okCall okCall 0 rfl rfl).2.2 0 rfl rfl

/-- C10: explicit `TargetHandle::unplug` returns success whenever the
owning client still exists: an absent slot is an Ok no-op, a present slot
issues exactly one driver-level unplug whose error is discarded (the
result does not depend on the unplug oracle at all), and only a destroyed
client yields an error, `ClientNoLongerExists`. -/
theorem c10_handle_unplug_semantics (inner : ClientInner) (serial : Nat)
    (u u' : Nat → Except BusError Nat) :
    (handleUnplug true inner serial u).1 = .ok ()
  ∧ (containsKey inner.targets serial = false →
      handleUnplug true inner serial u = (.ok (), inner, []))
  ∧ (containsKey inner.targets serial = true →
      (handleUnplug true inner serial u).2.2 = [serial])
  ∧ handleUnplug true inner serial u = handleUnplug true inner serial u'
  ∧ (handleUnplug false inner serial u).1 = .error .clientNoLongerExists := by
  by_cases h : containsKey inner.targets serial <;>
    simp [handleUnplug, h]

/-- C10 witness: explicit unplug of the present slot 1 under an oracle on
which every driver-level unplug fails. -/
theorem c10_handle_unplug_semantics_witness :
    (handleUnplug true demoInner 1 failingUnplug).1 = .ok ()
  ∧ (handleUnplug true demoInner 1 failingUnplug).2.2 = [1] := by
  have h := c10_handle_unplug_semantics demoInner 1 failingUnplug failingUnplug
  exact ⟨h.1, h.2.2.1 (by decide)⟩

/-- C1 (the code deviates from this claim): after slot 1 has been removed
by an explicit unplug, `TargetHandle::<DualShock4>::update` on a
surviving clone does not fail with `TargetDoesNotExist`; it issues the
submit-report control request to the driver anyway (the trace is
nonempty) and silently returns Ok when the driver accepts it, because the
source forwards to `Bus::update_ds4` without consulting the registry. -/
theorem c1_update_after_unplug_still_reaches_bus :
    (handleUnplug true demoInner 1 (fun _ => .ok 0)).1 = .ok ()
  ∧ containsKey (handleUnplug true demoInner 1 (fun _ => .ok 0)).2.1.targets 1 = false
  ∧ targetHandleUpdateDs4 (handleUnplug true demoInner 1 (fun _ => .ok 0)).2.1 1
      demoDs4Report okCall
      = (.ok (), [⟨.ds4SubmitReport, cStructSize ds4SubmitReportCFields⟩])
  ∧ (targetHandleUpdateDs4 (handleUnplug true demoInner 1 (fun _ => .ok 0)).2.1 1
      demoDs4Report okCall).1 ≠ .error (.targetDoesNotExist 1) := by decide

/-! ### Readiness-wait lemmas -/

/-- Notifications received in the stabilization phase reset the shorter
wait: each consumes one 250 ms `recv_timeout` and leaves the outcome to
the rest of the event sequence. -/
theorem stabilizeLoop_replicate (serial k : Nat) (l : List RecvEvent) :
    stabilizeLoop serial (List.replicate k .notif ++ l)
      = ((stabilizeLoop serial l).1,
         List.replicate k 250 ++ (stabilizeLoop serial l).2) := by
  induction k with
  | zero => simp
  | succ k ih => simp [List.replicate_succ, stabilizeLoop, ih]

/-- C6: the readiness-wait state machine over the received event
sequence: a first-phase timeout returns success after the single 500 ms
wait; after a first notification, each further notification resets a
250 ms wait and the first 250 ms timeout returns success; a bus error at
any point (after any number of notifications) is returned as the failure;
an unexpectedly closed channel yields `TargetDoesNotExist`. -/
theorem c6_readiness_wait_state_machine (serial k : Nat) (rest : List RecvEvent)
    (e : BusError) :
    waitForNotifications serial (.timeout :: rest) = (some (.ok ()), [500])
  ∧ waitForNotifications serial (.notif :: (List.replicate k .notif ++ .timeout :: rest))
      = (some (.ok ()), 500 :: List.replicate (k + 1) 250)
  ∧ (waitForNotifications serial (List.replicate k .notif ++ .busErr e :: rest)).1
      = some (.error (.busError e))
  ∧ (waitForNotifications serial (List.replicate k .notif ++ .disconnected :: rest)).1
      = some (.error (.targetDoesNotExist serial)) := by
  refine ⟨by simp [waitForNotifications], ?_, ?_, ?_⟩
  · simp [waitForNotifications, stabilizeLoop_replicate, stabilizeLoop,
          List.replicate_succ']
  · cases k with
    | zero => simp [waitForNotifications]
    | succ k =>
      simp [List.replicate_succ, waitForNotifications, stabilizeLoop_replicate,
            stabilizeLoop]
  · cases k with
    | zero => simp [waitForNotifications]
    | succ k =>
      simp [List.replicate_succ, waitForNotifications, stabilizeLoop_replicate,
            stabilizeLoop]

/-- C6 witness: concrete event sequences for slot 1: a silent first phase;
one notification followed by silence (500 ms then one 250 ms wait); two
notifications then a bus error; a closed channel. -/
theorem c6_readiness_wait_state_machine_witness :
    waitForNotifications 1 [.timeout] = (some (.ok ()), [500])
  ∧ waitForNotifications 1 [.notif, .timeout] = (some (.ok ()), [500, 250])
  ∧ (waitForNotifications 1 [.notif, .notif, .busErr .busNotFound]).1
      = some (.error (.busError .busNotFound))
  ∧ (waitForNotifications 1 [.disconnected]).1
      = some (.error (.targetDoesNotExist 1)) := by
  have h0 := c6_readiness_wait_state_machine 1 0 ([] : List RecvEvent) .busNotFound
  have h2 := c6_readiness_wait_state_machine 1 2 ([] : List RecvEvent) .busNotFound
  refine ⟨h0.1, ?_, ?_, ?_⟩
  · have := h0.2.1
    simpa using this
  · have := h2.2.2.1
    simpa using this
  · have := h0.2.2.2
    simpa using this

/-! ### Registry map lemmas -/

theorem containsKey_iff_mem_keys (m : List (Nat × Target)) (k : Nat) :
    containsKey m k = true ↔ k ∈ m.map Prod.fst := by
  simp [containsKey, List.any_eq_true, List.mem_map]

theorem containsKey_removeKey_self (m : List (Nat × Target)) (k : Nat) :
    containsKey (removeKey m k) k = false := by
  simp only [containsKey, removeKey, List.any_eq_false]
  intro p hp
  rcases List.mem_filter.1 hp with ⟨_, hne⟩
  simp only [bne_iff_ne, ne_eq] at hne
  simp [hne]

theorem containsKey_removeKey_ne (m : List (Nat × Target)) (k j : Nat) (h : j ≠ k) :
    containsKey (removeKey m j) k = containsKey m k := by
  simp only [containsKey, removeKey]
  rcases h' : m.any (fun p => p.1 == k) with _ | _
  · simp only [List.any_eq_false] at h'
    simp only [List.any_eq_false]
    intro p hp
    exact h' p (List.mem_of_mem_filter hp)
  · simp only [List.any_eq_true] at h'
    obtain ⟨p, hp, heq⟩ := h'
    simp only [beq_iff_eq] at heq
    simp only [List.any_eq_true]
    refine ⟨p, List.mem_filter.2 ⟨hp, ?_⟩, by simp [heq]⟩
    simp [heq]
    omega

/-! ### Slot-scan characterization -/

/-- Anything `plugin_internal`'s scan returns satisfies: the slot is in
the scanned range, free and pluggable; every earlier candidate was
occupied or failed to plug; and the new state is the old map with the
slot inserted (and `serial_no` recorded). -/
theorem pluginLoop_ok_char (inner : ClientInner) (plugOk : Nat → Bool) (tgt : Target) :
    ∀ n s s' k, pluginLoop inner plugOk tgt (List.range' s n) = .ok (s', k) →
      s ≤ k ∧ k < s + n
      ∧ containsKey inner.targets k = false ∧ plugOk k = true
      ∧ (∀ j, s ≤ j → j < k → containsKey inner.targets j = true ∨ plugOk j = false)
      ∧ s' = { inner with targets := (k, { tgt with serial_no := k }) :: inner.targets } := by
  intro n
  induction n with
  | zero =>
    intro s s' k h
    simp [List.range'_zero, pluginLoop] at h
  | succ n ih =>
    intro s s' k h
    rw [List.range'_succ] at h
    by_cases hc : (!containsKey inner.targets s && plugOk s) = true
    · rw [pluginLoop, if_pos hc] at h
      simp only [Except.ok.injEq, Prod.mk.injEq] at h
      obtain ⟨hs', hk⟩ := h
      subst hk
      simp only [Bool.and_eq_true, Bool.not_eq_true'] at hc
      exact ⟨Nat.le_refl _, by omega, hc.1, hc.2,
        fun j hj1 hj2 => absurd hj2 (by omega), hs'.symm⟩
    · rw [pluginLoop, if_neg hc] at h
      obtain ⟨hk1, hk2, hfree, hok, hprev, hst⟩ := ih (s + 1) s' k h
      have hs : containsKey inner.targets s = true ∨ plugOk s = false := by
        cases hck : containsKey inner.targets s with
        | true => exact Or.inl rfl
        | false =>
          cases hpk : plugOk s with
          | false => exact Or.inr rfl
          | true => exact absurd (by simp [hck, hpk]) hc
      refine ⟨by omega, by omega, hfree, hok, ?_, hst⟩
      intro j hj1 hj2
      rcases Nat.eq_or_lt_of_le hj1 with rfl | hlt
      · exact hs
      · exact hprev j (by omega) hj2

/-- If every candidate in the scanned range is occupied or unpluggable,
the scan fails with `NoFreeSlot`. -/
theorem pluginLoop_error_of_all (inner : ClientInner) (plugOk : Nat → Bool) (tgt : Target) :
    ∀ n s,
      (∀ j, s ≤ j → j < s + n → containsKey inner.targets j = true ∨ plugOk j = false) →
      pluginLoop inner plugOk tgt (List.range' s n) = .error .noFreeSlot := by
  intro n
  induction n with
  | zero =>
    intro s _
    simp [List.range'_zero, pluginLoop]
  | succ n ih =>
    intro s hall
    rw [List.range'_succ, pluginLoop, if_neg]
    · exact ih (s + 1) (fun j hj1 hj2 => hall j (by omega) (by omega))
    · rcases hall s (Nat.le_refl s) (by omega) with hc | hp
      · simp [hc]
      · simp [hp]

/-- Conversely, a failed scan means every candidate in the range was
occupied or unpluggable. -/
theorem pluginLoop_all_of_error (inner : ClientInner) (plugOk : Nat → Bool) (tgt : Target) :
    ∀ n s er, pluginLoop inner plugOk tgt (List.range' s n) = .error er →
      ∀ j, s ≤ j → j < s + n → containsKey inner.targets j = true ∨ plugOk j = false := by
  intro n
  induction n with
  | zero =>
    intro s er _ j hj1 hj2
    omega
  | succ n ih =>
    intro s er h j hj1 hj2
    rw [List.range'_succ] at h
    by_cases hc : (!containsKey inner.targets s && plugOk s) = true
    · rw [pluginLoop, if_pos hc] at h
      exact absurd h (by simp)
    · rw [pluginLoop, if_neg hc] at h
      have hs : containsKey inner.targets s = true ∨ plugOk s = false := by
        cases hck : containsKey inner.targets s with
        | true => exact Or.inl rfl
        | false =>
          cases hpk : plugOk s with
          | false => exact Or.inr rfl
          | true => exact absurd (by simp [hck, hpk]) hc
      rcases Nat.eq_or_lt_of_le hj1 with rfl | hlt
      · exact hs
      · exact ih (s + 1) er h j (by omega) (by omega)

/-- Computation rule: if every candidate below `t` is occupied or
unpluggable and `t` itself is free and pluggable, the scan returns `t`
and inserts it. -/
theorem pluginLoop_hit (inner : ClientInner) (plugOk : Nat → Bool) (tgt : Target) :
    ∀ n s t, s ≤ t → t < s + n →
      (∀ j, s ≤ j → j < t → containsKey inner.targets j = true ∨ plugOk j = false) →
      containsKey inner.targets t = false → plugOk t = true →
      pluginLoop inner plugOk tgt (List.range' s n)
        = .ok ({ inner with targets := (t, { tgt with serial_no := t }) :: inner.targets },
               t) := by
  intro n
  induction n with
  | zero =>
    intro s t h1 h2
    omega
  | succ n ih =>
    intro s t h1 h2 hprev hfree hok
    rw [List.range'_succ]
    rcases Nat.eq_or_lt_of_le h1 with rfl | hlt
    · rw [pluginLoop, if_pos (by simp [hfree, hok])]
    · rw [pluginLoop, if_neg]
      · exact ih (s + 1) t (by omega) (by omega)
          (fun j hj1 hj2 => hprev j (by omega) hj2) hfree hok
      · rcases hprev s (Nat.le_refl s) (by omega) with hc | hp
        · simp [hc]
        · simp [hp]

/-! ### Sequential allocation from an empty registry -/

theorem canon_containsKey (tgt : Target) (j s : Nat) :
    containsKey (canonTargets tgt j) s = true ↔ 1 ≤ s ∧ s ≤ j := by
  simp only [canonTargets, containsKey, List.any_eq_true, List.mem_map,
    List.mem_reverse, List.mem_range'_1, beq_iff_eq]
  constructor
  · rintro ⟨p, ⟨i, hi, rfl⟩, rfl⟩
    omega
  · intro hs
    exact ⟨(s, { tgt with serial_no := s }), ⟨s, by omega, rfl⟩, rfl⟩

theorem canon_not_containsKey (tgt : Target) (j s : Nat) (h : ¬(1 ≤ s ∧ s ≤ j)) :
    containsKey (canonTargets tgt j) s = false := by
  rcases hc : containsKey (canonTargets tgt j) s with _ | _
  · rfl
  · exact absurd ((canon_containsKey tgt j s).1 hc) h

theorem canonTargets_succ (tgt : Target) (j : Nat) :
    canonTargets tgt (j + 1)
      = (j + 1, { tgt with serial_no := j + 1 }) :: canonTargets tgt j := by
  have h : List.range' 1 (j + 1) = List.range' 1 j ++ [j + 1] := by
    have := @List.range'_concat 1 1 j
    simpa [Nat.add_comm] using this
  simp [canonTargets, h]

/-- With every candidate pluggable, a registry holding exactly `1..=j`
allocates `j + 1` next. -/
theorem pluginInternal_canon (tgt : Target) (m j : Nat) (h : j < m) :
    pluginInternal (canonState tgt m j) (fun _ => true) tgt
      = .ok (canonState tgt m (j + 1), j + 1) := by
  have hfree : containsKey (canonTargets tgt j) (j + 1) = false :=
    canon_not_containsKey tgt j (j + 1) (by omega)
  have hhit := pluginLoop_hit (canonState tgt m j) (fun _ => true) tgt m 1 (j + 1)
    (by omega) (by omega)
    (fun i hi1 hi2 => Or.inl ((canon_containsKey tgt j i).2 (by omega)))
    hfree rfl
  show pluginLoop (canonState tgt m j) (fun _ => true) tgt (List.range' 1 m) = _
  rw [hhit]
  simp [canonState, canonTargets_succ]

/-- Running `n` further allocations from the canonical `j`-slot state
yields exactly the slots `j+1, ..., j+n` in order. -/
theorem allocRun_canon (tgt : Target) (m : Nat) :
    ∀ n j, j + n ≤ m →
      allocRun tgt (fun _ => true) (canonState tgt m j) n
        = (canonState tgt m (j + n), (List.range' (j + 1) n).map Except.ok) := by
  intro n
  induction n with
  | zero =>
    intro j _
    simp [allocRun, List.range'_zero]
  | succ n ih =>
    intro j h
    rw [allocRun, pluginInternal_canon tgt m j (by omega)]
    have := ih (j + 1) (by omega)
    rw [List.range'_succ]
    simp only [List.map_cons]
    rw [this]
    have harith : j + 1 + n = j + (n + 1) := by omega
    rw [harith]

/-- C3: slot allocation is deterministic lowest-free-wins.
Conjuncts: (1) any successful `plugin_internal` returns a slot in
`[1, max_targets]` that was free and pluggable, with every smaller
candidate occupied or failing to plug, and inserts exactly that slot;
(2) if no candidate is both free and pluggable the call fails with
`NoFreeSlot`; (3) on an empty registry, `n ≤ m` sequential successful
plugs yield the slots 1, 2, ..., n in order; (4) after releasing an
occupied slot `k`, the next allocation (with plugs succeeding) succeeds
and yields a slot `≤ k`, i.e. `k` is reused before any higher unused
slot. -/
theorem c3_slot_allocation_lowest_free_wins (inner : ClientInner)
    (plugOk : Nat → Bool) (tgt : Target) :
    (∀ s' k, pluginInternal inner plugOk tgt = .ok (s', k) →
        1 ≤ k ∧ k ≤ inner.maxTargets
      ∧ containsKey inner.targets k = false ∧ plugOk k = true
      ∧ (∀ j, 1 ≤ j → j < k → containsKey inner.targets j = true ∨ plugOk j = false)
      ∧ s' = { inner with targets := (k, { tgt with serial_no := k }) :: inner.targets })
  ∧ ((∀ j, 1 ≤ j → j ≤ inner.maxTargets →
        containsKey inner.targets j = true ∨ plugOk j = false) →
      pluginInternal inner plugOk tgt = .error .noFreeSlot)
  ∧ (∀ m n, n ≤ m →
      (allocRun tgt (fun _ => true) (⟨[], m⟩ : ClientInner) n).2
        = (List.range' 1 n).map Except.ok)
  ∧ (∀ k, 1 ≤ k → k ≤ inner.maxTargets → containsKey inner.targets k = true →
      ∃ s' slot,
        pluginInternal { inner with targets := removeKey inner.targets k }
            (fun _ => true) tgt = .ok (s', slot)
        ∧ slot ≤ k) := by
  refine ⟨?_, ?_, ?_, ?_⟩
  · intro s' k h
    obtain ⟨hk1, hk2, hfree, hok, hprev, hst⟩ :=
      pluginLoop_ok_char inner plugOk tgt inner.maxTargets 1 s' k h
    exact ⟨hk1, by omega, hfree, hok, hprev, hst⟩
  · intro hall
    exact pluginLoop_error_of_all inner plugOk tgt inner.maxTargets 1
      (fun j hj1 hj2 => hall j hj1 (by omega))
  · intro m n hnm
    have h := allocRun_canon tgt m n 0 (by omega)
    have hcanon : canonState tgt m 0 = (⟨[], m⟩ : ClientInner) := rfl
    rw [hcanon] at h
    rw [h]
  · intro k hk1 hk2 hck
    set inner' : ClientInner := { inner with targets := removeKey inner.targets k }
      with hinner'
    cases hres : pluginInternal inner' (fun _ => true) tgt with
    | error er =>
      exfalso
      have hall := pluginLoop_all_of_error inner' (fun _ => true) tgt
        inner.maxTargets 1 er hres k hk1 (by omega)
      rcases hall with hc | hp
      · rw [show inner'.targets = removeKey inner.targets k from rfl,
          containsKey_removeKey_self] at hc
        exact Bool.false_ne_true hc
      · simp at hp
    | ok p =>
      obtain ⟨s', slot⟩ := p
      obtain ⟨hs1, hs2, hfree', hok', hprev', hst'⟩ :=
        pluginLoop_ok_char inner' (fun _ => true) tgt inner.maxTargets 1 s' slot hres
      refine ⟨s', slot, rfl, ?_⟩
      by_contra hgt
      push_neg at hgt
      have := hprev' k hk1 hgt
      rcases this with hc | hp
      · rw [show inner'.targets = removeKey inner.targets k from rfl,
          containsKey_removeKey_self] at hc
        exact Bool.false_ne_true hc
      · simp at hp

/-- C3 witness: three sequential plugs on an empty 3-slot registry yield
slots 1, 2, 3, and releasing slot 1 from the full registry and allocating
again reuses a slot `≤ 1`. -/
theorem c3_slot_allocation_lowest_free_wins_witness :
    (allocRun demoTarget (fun _ => true) (⟨[], 3⟩ : ClientInner) 3).2
      = [.ok 1, .ok 2, .ok 3]
  ∧ ∃ s' slot,
      pluginInternal
          { (⟨[(1, ⟨.dualShock4, 1, 0x054C, 0x05C4⟩)], 1⟩ : ClientInner) with
            targets := removeKey [(1, ⟨.dualShock4, 1, 0x054C, 0x05C4⟩)] 1 }
          (fun _ => true) demoTarget
        = .ok (s', slot)
      ∧ slot ≤ 1 := by
  constructor
  · have h := (c3_slot_allocation_lowest_free_wins ⟨[], 3⟩ (fun _ => true)
      demoTarget).2.2.1 3 3 (by omega)
    exact h.trans rfl
  · exact (c3_slot_allocation_lowest_free_wins
      ⟨[(1, ⟨.dualShock4, 1, 0x054C, 0x05C4⟩)], 1⟩ (fun _ => true)
      demoTarget).2.2.2 1 (by decide) (by decide) (by decide)

/-! ### Registry invariant -/

/-- Every reachable registry state keeps at most `max_targets` entries,
every key lies in `[1, max_targets]` and coincides with the stored
target's `serial_no`, and the keys are pairwise distinct. -/
theorem reachable_inv (s : ClientInner) (h : Reachable s) :
    s.targets.length ≤ s.maxTargets
  ∧ (∀ p ∈ s.targets, 1 ≤ p.1 ∧ p.1 ≤ s.maxTargets ∧ p.2.serial_no = p.1)
  ∧ (s.targets.map Prod.fst).Nodup := by
  induction h with
  | init m => simp
  | plugStep s plugOk tgt s' k hr hok ih =>
    obtain ⟨hlen, hmem, hnd⟩ := ih
    obtain ⟨hk1, hk2, hfree, hokk, hprev, hst⟩ :=
      pluginLoop_ok_char s plugOk tgt s.maxTargets 1 s' k hok
    subst hst
    have hk2' : k ≤ s.maxTargets := by omega
    have hknot : k ∉ s.targets.map Prod.fst := by
      intro hmem'
      rw [← containsKey_iff_mem_keys] at hmem'
      rw [hfree] at hmem'
      exact Bool.false_ne_true hmem'
    refine ⟨?_, ?_, ?_⟩
    · classical
      set K := (s.targets.map Prod.fst).toFinset with hK
      have hcard : K.card = s.targets.length := by
        rw [hK, List.toFinset_card_of_nodup hnd, List.length_map]
      have hsub : K ⊆ (Finset.Icc 1 s.maxTargets).erase k := by
        intro j hj
        rw [hK, List.mem_toFinset] at hj
        obtain ⟨p, hp, rfl⟩ := List.mem_map.1 hj
        refine Finset.mem_erase.2 ⟨?_, ?_⟩
        · intro heq
          exact hknot (heq ▸ List.mem_map.2 ⟨p, hp, rfl⟩)
        · exact Finset.mem_Icc.2 ⟨(hmem p hp).1, (hmem p hp).2.1⟩
      have hle : K.card ≤ ((Finset.Icc 1 s.maxTargets).erase k).card :=
        Finset.card_le_card hsub
      rw [Finset.card_erase_of_mem (Finset.mem_Icc.2 ⟨hk1, hk2'⟩), Nat.card_Icc] at hle
      simp only [List.length_cons]
      omega
    · intro p hp
      rcases List.mem_cons.1 hp with rfl | hp'
      · exact ⟨hk1, by simpa using hk2', by simp⟩
      · have hh := hmem p hp'
        exact ⟨hh.1, by simpa using hh.2.1, hh.2.2⟩
    · simp only [List.map_cons]
      exact List.nodup_cons.2 ⟨by simpa using hknot, hnd⟩
  | unplugStep s serial u hr ih =>
    obtain ⟨hlen, hmem, hnd⟩ := ih
    by_cases hc : containsKey s.targets serial
    · have hsubl : (removeKey s.targets serial).Sublist s.targets :=
        List.filter_sublist s.targets
      simp only [handleUnplug, hc, if_true]
      refine ⟨?_, ?_, ?_⟩
      · exact le_trans hsubl.length_le hlen
      · intro p hp
        exact hmem p (hsubl.mem hp)
      · exact (hsubl.map Prod.fst).nodup hnd
    · simp only [handleUnplug, hc, if_false, Bool.false_eq_true]
      exact ⟨hlen, hmem, hnd⟩

/-- C4: registry capacity invariant: for every reachable registry state,
`targets.len() <= max_targets`, every live slot number lies in
`[1, max_targets]` and the slot numbers are unique; and when all capacity
is used (`len = max_targets`), any allocation attempt fails with the
capacity error `NoFreeSlot` — so no `(N+1)`-th entry ever appears. -/
theorem c4_registry_capacity_invariant (s : ClientInner) (h : Reachable s) :
    s.targets.length ≤ s.maxTargets
  ∧ (∀ p ∈ s.targets, 1 ≤ p.1 ∧ p.1 ≤ s.maxTargets)
  ∧ (s.targets.map Prod.fst).Nodup
  ∧ (∀ plugOk tgt, s.targets.length = s.maxTargets →
      pluginInternal s plugOk tgt = .error .noFreeSlot) := by
  obtain ⟨hlen, hmem, hnd⟩ := reachable_inv s h
  refine ⟨hlen, fun p hp => ⟨(hmem p hp).1, (hmem p hp).2.1⟩, hnd, ?_⟩
  intro plugOk tgt hfull
  classical
  have hfullmem : ∀ j, 1 ≤ j → j ≤ s.maxTargets → containsKey s.targets j = true := by
    set K := (s.targets.map Prod.fst).toFinset with hK
    have hcard : K.card = s.maxTargets := by
      rw [hK, List.toFinset_card_of_nodup hnd, List.length_map, hfull]
    have hsub : K ⊆ Finset.Icc 1 s.maxTargets := by
      intro j hj
      rw [hK, List.mem_toFinset] at hj
      obtain ⟨p, hp, rfl⟩ := List.mem_map.1 hj
      exact Finset.mem_Icc.2 ⟨(hmem p hp).1, (hmem p hp).2.1⟩
    have heq : K = Finset.Icc 1 s.maxTargets := by
      apply Finset.eq_of_subset_of_card_le hsub
      rw [hcard, Nat.card_Icc]
      omega
    intro j hj1 hj2
    have hjK : j ∈ K := heq ▸ Finset.mem_Icc.2 ⟨hj1, hj2⟩
    rw [hK, List.mem_toFinset] at hjK
    exact (containsKey_iff_mem_keys s.targets j).2 hjK
  exact pluginLoop_error_of_all s plugOk tgt s.maxTargets 1
    (fun j hj1 hj2 => Or.inl (hfullmem j hj1 (by omega)))

/-- C4 witness: a full single-slot registry, reached by one successful
plug from the empty registry, rejects the next allocation with
`NoFreeSlot`, and its invariant holds. -/
theorem c4_registry_capacity_invariant_witness :
    pluginInternal ⟨[(1, ⟨.dualShock4, 1, 0x054C, 0x05C4⟩)], 1⟩ (fun _ => true)
        demoTarget = .error .noFreeSlot
  ∧ ((⟨[(1, ⟨.dualShock4, 1, 0x054C, 0x05C4⟩)], 1⟩ : ClientInner).targets.map
        Prod.fst).Nodup := by
  have hreach : Reachable ⟨[(1, ⟨.dualShock4, 1, 0x054C, 0x05C4⟩)], 1⟩ :=
    Reachable.plugStep ⟨[], 1⟩ (fun _ => true) demoTarget _ 1
      (Reachable.init 1) (by decide)
  have h := c4_registry_capacity_invariant _ hreach
  exact ⟨h.2.2.2 (fun _ => true) demoTarget (by decide), h.2.2.1⟩

/-! ### Teardown -/

theorem dropUnplugCalls_eq_map (l : List (Nat × Target))
    (u : Nat → Except BusError Nat) :
    dropUnplugCalls l u = l.map (fun p => p.2.serial_no) := by
  induction l with
  | nil => rfl
  | cons p rest ih => simp [dropUnplugCalls, ih]

/-- C7: registry teardown with M still-registered slots issues exactly one
best-effort unplug per registered slot (M attempts total, over exactly
the registered slot numbers when keys are consistent with the stored
serials, as every reachable state is), clears the map, and its outcome
does not depend on the unplug results at all — so it completes even if
every unplug attempt fails. -/
theorem c7_teardown_unplugs_every_slot (inner : ClientInner)
    (u u' : Nat → Except BusError Nat)
    (hser : ∀ p ∈ inner.targets, p.2.serial_no = p.1) :
    (clientInnerDrop inner u).1.length = inner.targets.length
  ∧ (clientInnerDrop inner u).1 = inner.targets.map Prod.fst
  ∧ (clientInnerDrop inner u).2.targets = []
  ∧ clientInnerDrop inner u = clientInnerDrop inner u' := by
  refine ⟨?_, ?_, rfl, ?_⟩
  · simp [clientInnerDrop, dropUnplugCalls_eq_map]
  · simp only [clientInnerDrop, dropUnplugCalls_eq_map]
    exact List.map_congr_left hser
  · simp [clientInnerDrop, dropUnplugCalls_eq_map]

/-- C7 witness: tearing down a two-slot registry under an oracle on which
every driver-level unplug fails still issues exactly the two unplug
attempts and clears the map. -/
theorem c7_teardown_unplugs_every_slot_witness :
    (clientInnerDrop ⟨[(1, ⟨.dualShock4, 1, 0x054C, 0x05C4⟩),
          (2, ⟨.dualShock4, 2, 0x054C, 0x05C4⟩)], 16⟩ failingUnplug).1 = [1, 2]
  ∧ (clientInnerDrop ⟨[(1, ⟨.dualShock4, 1, 0x054C, 0x05C4⟩),
          (2, ⟨.dualShock4, 2, 0x054C, 0x05C4⟩)], 16⟩ failingUnplug).2.targets
      = [] := by
  have h := c7_teardown_unplugs_every_slot
    ⟨[(1, ⟨.dualShock4, 1, 0x054C, 0x05C4⟩),
      (2, ⟨.dualShock4, 2, 0x054C, 0x05C4⟩)], 16⟩
    failingUnplug failingUnplug (by decide)
  exact ⟨h.2.1.trans (by decide), h.2.2.1⟩
